import Mathlib

/-!
Shallow embedding of vkuznet/TokenManager (token.go).

The program is a small CLI daemon that renews OAuth-style tokens.  The
embedding models the filesystem, the PEM parser and the HTTP exchange as
explicit parameters (oracles), and translates the functions `ReadToken`,
`Transport`, `Renew` and the relevant parts of `main` into executable Lean
definitions.  Fatal terminations (`log.Fatal`) are modelled as `Except.error`
or `Option.none` results; log output is collected into `List String` so that
verbosity-dependent behaviour stays observable.
-/

/-- Abstract filesystem seen by the program: `stat` is whether `os.Stat`
succeeds on a path, `readFile` is `ioutil.ReadFile` (`none` = error), and
`readDir` is `ioutil.ReadDir` returning the entry names (`none` = error,
which covers a nonexistent directory, the empty string and permission
errors). -/
structure FS where
  stat : String → Bool
  readFile : String → Option String
  readDir : String → Option (List String)

/-- `ioutil.WriteFile` semantics: the file is created or truncated, so after
the write the path exists and its contents are exactly `content`. -/
def FS.writeFile (fs : FS) (path content : String) : FS where
  stat := fun p => if p == path then true else fs.stat p
  readFile := fun p => if p == path then some content else fs.readFile p
  readDir := fs.readDir

/-- `strings.Replace(s, "\n", "", -1)`: the pattern is the single newline
character, so the call deletes every newline character of `s`. -/
def removeNewlines (s : String) : String :=
  String.mk (s.data.filter (fun c => c ≠ '\n'))

/-- `ReadToken` from token.go: if `os.Stat` succeeds the path is read
(`log.Fatalf` on read failure, modelled as `none`) and all newlines are
stripped; otherwise the argument is returned unchanged as a literal token. -/
def ReadToken (fs : FS) (r : String) : Option String :=
  if fs.stat r then
    match fs.readFile r with
    | some b => some (removeNewlines b)
    | none => none
  else
    some r

/-- A filesystem with no files and no directories. -/
def fsEmpty : FS where
  stat := fun _ => false
  readFile := fun _ => none
  readDir := fun _ => none

/-- Claim C6: for every string `s` that does not name an existing file,
`ReadToken` returns `s` unchanged as a literal token. -/
theorem readToken_literal_id (fs : FS) (s : String) (h : fs.stat s = false) :
    ReadToken fs s = some s := by
  simp [ReadToken, h]

theorem readToken_literal_id_witness :
    fsEmpty.stat "mytoken" = false ∧ ReadToken fsEmpty "mytoken" = some "mytoken" :=
  ⟨rfl, readToken_literal_id fsEmpty "mytoken" rfl⟩

/-- Claim C7: for every path naming an existing, readable file, `ReadToken`
returns the file's entire contents with all newline characters stripped; in
particular a file containing "abc\ndef\n" yields "abcdef". -/
theorem readToken_file_strips_newlines (fs : FS) (p c : String)
    (h1 : fs.stat p = true) (h2 : fs.readFile p = some c) :
    ReadToken fs p = some (removeNewlines c) ∧
      (c = "abc\ndef\n" → ReadToken fs p = some "abcdef") := by
  constructor
  · simp [ReadToken, h1, h2]
  · intro hc
    subst hc
    simp [ReadToken, h1, h2]
    decide

/-- A filesystem holding one token file containing "abc\ndef\n". -/
def fsAbc : FS where
  stat := fun p => p == "tok.txt"
  readFile := fun p => if p == "tok.txt" then some "abc\ndef\n" else none
  readDir := fun _ => none

theorem readToken_file_strips_newlines_witness :
    (fsAbc.stat "tok.txt" = true ∧ fsAbc.readFile "tok.txt" = some "abc\ndef\n") ∧
      ReadToken fsAbc "tok.txt" = some "abcdef" :=
  ⟨⟨rfl, rfl⟩,
    (readToken_file_strips_newlines fsAbc "tok.txt" "abc\ndef\n" rfl rfl).2 rfl⟩

/-- The two TLS client configurations `Transport` can build:
`tls.Config{InsecureSkipVerify: true}` (no entry was seen in the directory)
or `tls.Config{RootCAs: certPool}` with the accumulated pool.  Certificates
are modelled as opaque strings. -/
inductive TLSConfig where
  | insecure
  | withPool (pool : List String)
deriving DecidableEq

/-- Whether a configuration disables TLS peer verification. -/
def TLSConfig.isInsecure : TLSConfig → Bool
  | .insecure => true
  | .withPool _ => false

/-- State threaded through the directory scan of `Transport`: the certificate
pool, the `certs` flag and the log lines emitted so far. -/
structure ScanState where
  pool : List String
  certs : Bool
  logs : List String

/-- Certificates contributed by one directory entry: the file is read
(`ioutil.ReadFile`; a failed read passes the nil slice to
`AppendCertsFromPEM`, which then appends nothing) and parsed by the PEM
parser `pem`, which returns the certificates found in the data. -/
def parsedOf (pem : String → List String) (fs : FS) (rootCAs name : String) :
    List String :=
  match fs.readFile (rootCAs ++ "/" ++ name) with
  | some c => pem c
  | none => []

/-- One iteration of the scan loop of `Transport` (token.go lines 112-129):
read the entry, append the certificates it parses to, log according to the
verbosity, and unconditionally set `certs = true`. -/
def scanStep (pem : String → List String) (fs : FS) (rootCAs : String)
    (verbose : Int) (st : ScanState) (name : String) : ScanState :=
  let fname := rootCAs ++ "/" ++ name
  let logsRead :=
    match fs.readFile fname with
    | some _ => []
    | none => if verbose > 1 then ["Unable to read " ++ fname] else []
  let parsed := parsedOf pem fs rootCAs name
  let logsPem :=
    if parsed = [] ∧ verbose > 2 then
      ["invalid PEM format while importing trust-chain: " ++ fname]
    else []
  let logsLoad := if verbose > 2 then ["Load CA file " ++ fname] else []
  { pool := st.pool ++ parsed
    certs := true
    logs := st.logs ++ logsRead ++ logsPem ++ logsLoad }

/-- The message built when the directory cannot be listed (token.go lines
104-107); the underlying OS error text is abstracted away. -/
def transportErrMsg (rootCAs : String) : String :=
  if rootCAs = "" then "root CAs area is not provided"
  else "Unable to list files in " ++ rootCAs

/-- Result of `Transport`: either an error (the Go function returns a nil
transport and a non-nil error) or a TLS configuration, plus the log lines. -/
structure TransportResult where
  result : Except String TLSConfig
  logs : List String

/-- `Transport` from token.go: list the directory (error out if that fails),
scan every entry accumulating a certificate pool, and return the insecure
configuration exactly when the `certs` flag was never set. -/
def Transport (pem : String → List String) (fs : FS) (rootCAs : String)
    (verbose : Int) : TransportResult :=
  match fs.readDir rootCAs with
  | none => ⟨.error (transportErrMsg rootCAs), [transportErrMsg rootCAs]⟩
  | some files =>
    let st := files.foldl (scanStep pem fs rootCAs verbose) ⟨[], false, []⟩
    let cfg := if st.certs then TLSConfig.withPool st.pool else TLSConfig.insecure
    ⟨.ok cfg, st.logs⟩

theorem scanStep_certs (pem : String → List String) (fs : FS) (rootCAs : String)
    (verbose : Int) (st : ScanState) (name : String) :
    (scanStep pem fs rootCAs verbose st name).certs = true := rfl

theorem scanStep_pool (pem : String → List String) (fs : FS) (rootCAs : String)
    (verbose : Int) (st : ScanState) (name : String) :
    (scanStep pem fs rootCAs verbose st name).pool =
      st.pool ++ parsedOf pem fs rootCAs name := rfl

/-- After folding the scan over a list of entries, the `certs` flag is set
iff it was already set or the list is nonempty. -/
theorem scan_certs (pem : String → List String) (fs : FS) (rootCAs : String)
    (verbose : Int) (files : List String) (st : ScanState) :
    (files.foldl (scanStep pem fs rootCAs verbose) st).certs =
      (st.certs || !files.isEmpty) := by
  induction files generalizing st with
  | nil => simp
  | cons a rest ih =>
    simp only [List.foldl_cons, ih, scanStep_certs, List.isEmpty_cons]
    simp [scanStep]

/-- After folding the scan, the pool is the initial pool followed by the
certificates parsed from each entry in order. -/
theorem scan_pool (pem : String → List String) (fs : FS) (rootCAs : String)
    (verbose : Int) (files : List String) (st : ScanState) :
    (files.foldl (scanStep pem fs rootCAs verbose) st).pool =
      st.pool ++ (files.map (parsedOf pem fs rootCAs)).flatten := by
  induction files generalizing st with
  | nil => simp
  | cons a rest ih =>
    simp only [List.foldl_cons, ih, scanStep_pool, List.map_cons,
      List.flatten_cons, List.append_assoc]

/-- When the directory listing succeeds, `Transport` returns the insecure
configuration for an empty listing and otherwise the pool of certificates
parsed from the entries in order. -/
theorem transport_ok_of_readDir (pem : String → List String) (fs : FS)
    (rootCAs : String) (verbose : Int) (files : List String)
    (hdir : fs.readDir rootCAs = some files) :
    (Transport pem fs rootCAs verbose).result =
      .ok (if files.isEmpty then TLSConfig.insecure
        else TLSConfig.withPool ((files.map (parsedOf pem fs rootCAs)).flatten)) := by
  unfold Transport
  rw [hdir]
  simp only [scan_certs, scan_pool, Bool.false_or, List.nil_append]
  cases h : files.isEmpty <;> simp [h]

/-- A PEM parser that finds no certificate in any data. -/
def pemNone : String → List String := fun _ => []

/-- A filesystem whose directory "cas" holds a single non-PEM file. -/
def fsGarbage : FS where
  stat := fun _ => false
  readFile := fun p => if p == "cas/garbage.txt" then some "junk" else none
  readDir := fun d => if d == "cas" then some ["garbage.txt"] else none

/-- Claim C1 counterexample: for the directory "cas" holding exactly one
garbage file, zero certificates are parsed (the returned pool is empty), yet
the returned configuration has insecure = false — the claimed equivalence
"insecure iff zero certificates parsed" fails. -/
theorem transport_garbageDir_not_insecure :
    (Transport pemNone fsGarbage "cas" 0).result = .ok (TLSConfig.withPool []) ∧
      (TLSConfig.withPool ([] : List String)).isInsecure = false :=
  ⟨rfl, rfl⟩

/-- Claim C1 (amended): when the directory listing succeeds, the returned
configuration has insecure = true iff the listing holds zero entries; a
directory with at least one entry yields insecure = false even when no entry
parses as a certificate, because the scan marks the `certs` flag for every
entry regardless of parse success. -/
theorem transport_insecure_iff_emptyDir (pem : String → List String) (fs : FS)
    (rootCAs : String) (verbose : Int) (files : List String) (cfg : TLSConfig)
    (hdir : fs.readDir rootCAs = some files)
    (hok : (Transport pem fs rootCAs verbose).result = .ok cfg) :
    cfg.isInsecure = true ↔ files = [] := by
  rw [transport_ok_of_readDir pem fs rootCAs verbose files hdir] at hok
  cases files with
  | nil =>
    simp only [List.isEmpty_nil, if_true, Except.ok.injEq] at hok
    subst hok
    simp [TLSConfig.isInsecure]
  | cons a rest =>
    simp only [List.isEmpty_cons, if_false, Except.ok.injEq] at hok
    subst hok
    simp [TLSConfig.isInsecure]

theorem transport_insecure_iff_emptyDir_witness :
    (fsGarbage.readDir "cas" = some ["garbage.txt"] ∧
      (Transport pemNone fsGarbage "cas" 0).result = .ok (TLSConfig.withPool [])) ∧
      ((TLSConfig.withPool ([] : List String)).isInsecure = true ↔
        ["garbage.txt"] = ([] : List String)) :=
  ⟨⟨rfl, rfl⟩,
    transport_insecure_iff_emptyDir pemNone fsGarbage "cas" 0 ["garbage.txt"]
      (TLSConfig.withPool []) rfl rfl⟩

/-- The HTTP client `Renew` ends up using: the zero-value `&http.Client{}`
(standard system trust roots) or a client wrapping the transport built by
`Transport`. -/
inductive Client where
  | default
  | withTransport (cfg : TLSConfig)
deriving DecidableEq

/-- Whether the client's transport disables TLS verification; the default
client verifies against system roots. -/
def Client.isInsecure : Client → Bool
  | .default => false
  | .withTransport cfg => cfg.isInsecure

/-- Client selection in `Renew` (token.go lines 70-74): the custom transport
when `Transport` succeeded, the default client otherwise. -/
def renewClient (pem : String → List String) (fs : FS) (rootCAs : String)
    (verbose : Int) : Client :=
  match (Transport pem fs rootCAs verbose).result with
  | .ok cfg => .withTransport cfg
  | .error _ => .default

/-- Claim C2 counterexample: for the empty-string path the listing fails and
`Transport` returns an error carrying no configuration at all (Go returns a
nil transport), not an insecure configuration together with the error. -/
theorem transport_listFail_returns_no_config :
    (Transport pemNone fsEmpty "" 0).result =
        .error "root CAs area is not provided" ∧
      ((Transport pemNone fsEmpty "" 0).result.toOption : Option TLSConfig) = none :=
  ⟨rfl, rfl⟩

/-- Claim C2 (amended): when the root-CA directory cannot be listed (does
not exist, empty string, permission error), the Trust Store Builder returns
no transport together with a non-fatal diagnostic-grade error, and the
Renewal Client then proceeds with the default client (system trust roots). -/
theorem transport_listFail_error_and_default_client (pem : String → List String)
    (fs : FS) (rootCAs : String) (verbose : Int)
    (hdir : fs.readDir rootCAs = none) :
    (Transport pem fs rootCAs verbose).result = .error (transportErrMsg rootCAs) ∧
      renewClient pem fs rootCAs verbose = Client.default := by
  constructor
  · simp [Transport, hdir]
  · simp [renewClient, Transport, hdir]

theorem transport_listFail_error_and_default_client_witness :
    fsEmpty.readDir "" = none ∧
      ((Transport pemNone fsEmpty "" 0).result = .error (transportErrMsg "") ∧
        renewClient pemNone fsEmpty "" 0 = Client.default) :=
  ⟨rfl, transport_listFail_error_and_default_client pemNone fsEmpty "" 0 rfl⟩

/-- Claim C3: a directory holding exactly one valid certificate file and one
garbage (non-PEM) file, in either order, yields a configuration with
insecure = false whose pool holds exactly the parsed certificate; the
garbage entry contributes nothing but does not abort the scan. -/
theorem transport_partial_corruption_tolerance (pem : String → List String)
    (fs : FS) (dir : String) (verbose : Int) (a b cert : String)
    (hdir : fs.readDir dir = some [a, b] ∨ fs.readDir dir = some [b, a])
    (ha : parsedOf pem fs dir a = [cert])
    (hb : parsedOf pem fs dir b = []) :
    (Transport pem fs dir verbose).result = .ok (TLSConfig.withPool [cert]) ∧
      (TLSConfig.withPool [cert]).isInsecure = false := by
  refine ⟨?_, rfl⟩
  rcases hdir with h | h <;>
    rw [transport_ok_of_readDir pem fs dir verbose _ h] <;>
    simp [ha, hb]

/-- A PEM parser recognising exactly the data "PEMDATA" as one certificate. -/
def pemOne : String → List String :=
  fun c => if c == "PEMDATA" then ["certA"] else []

/-- A filesystem whose directory "cas" holds one valid certificate file and
one garbage file. -/
def fsMixed : FS where
  stat := fun _ => false
  readFile := fun p =>
    if p == "cas/good.pem" then some "PEMDATA"
    else if p == "cas/garbage.txt" then some "junk" else none
  readDir := fun d => if d == "cas" then some ["good.pem", "garbage.txt"] else none

theorem transport_partial_corruption_tolerance_witness :
    (fsMixed.readDir "cas" = some ["good.pem", "garbage.txt"] ∧
      parsedOf pemOne fsMixed "cas" "good.pem" = ["certA"] ∧
      parsedOf pemOne fsMixed "cas" "garbage.txt" = []) ∧
      ((Transport pemOne fsMixed "cas" 0).result =
          .ok (TLSConfig.withPool ["certA"]) ∧
        (TLSConfig.withPool ["certA"]).isInsecure = false) :=
  ⟨⟨rfl, rfl, rfl⟩,
    transport_partial_corruption_tolerance pemOne fsMixed "cas" 0
      "good.pem" "garbage.txt" "certA" (Or.inl rfl) rfl rfl⟩

/-- `TokenRecord` from token.go with its five JSON-tagged fields; `int64`
fields are modelled as `Int` (no claim touches 64-bit overflow, and JSON
numbers outside int64 do not appear in the claims). -/
structure TokenRecord where
  accessToken : String
  accessTokenExpire : Int
  refreshToken : String
  refreshTokenExpire : Int
  idToken : String
deriving DecidableEq

/-- The Go zero value of `TokenRecord`, the starting point of
`json.Unmarshal` into a fresh struct. -/
def zeroRecord : TokenRecord := ⟨"", 0, "", 0, ""⟩

/-- Parsed JSON values (the body after syntactic JSON parsing). -/
inductive Json where
  | null
  | bool (b : Bool)
  | num (n : Int)
  | str (s : String)
  | arr (xs : List Json)
  | obj (kvs : List (String × Json))

/-- ASCII folding of a JSON object key, modelling the case-insensitive key
matching of `encoding/json` (keys are matched to field tags preferring an
exact match but also accepting a case-insensitive one; the five tags here
are distinct and lowercase, so folding the key decides the match). -/
def asciiLower (s : String) : String :=
  String.mk (s.data.map Char.toLower)

/-- Whether an object key matches a (lowercase) field tag under the
case-insensitive matching of `encoding/json`. -/
def keyMatches (k tag : String) : Bool :=
  asciiLower k == tag

/-- Effect of one JSON object member on the struct, following
`encoding/json`: keys are matched to the field tags case-insensitively, a
matching member requires a value of the field's type (JSON null is a
no-op), a type mismatch is an error, and unmatched keys are ignored. -/
def setField (rec : TokenRecord) (k : String) (v : Json) : Except String TokenRecord :=
  if keyMatches k "access_token" then
    match v with
    | .str s => .ok { rec with accessToken := s }
    | .null => .ok rec
    | _ => .error "cannot unmarshal value into string field access_token"
  else if keyMatches k "expires_in" then
    match v with
    | .num n => .ok { rec with accessTokenExpire := n }
    | .null => .ok rec
    | _ => .error "cannot unmarshal value into int64 field expires_in"
  else if keyMatches k "refresh_token" then
    match v with
    | .str s => .ok { rec with refreshToken := s }
    | .null => .ok rec
    | _ => .error "cannot unmarshal value into string field refresh_token"
  else if keyMatches k "refresh_expires_in" then
    match v with
    | .num n => .ok { rec with refreshTokenExpire := n }
    | .null => .ok rec
    | _ => .error "cannot unmarshal value into int64 field refresh_expires_in"
  else if keyMatches k "id_token" then
    match v with
    | .str s => .ok { rec with idToken := s }
    | .null => .ok rec
    | _ => .error "cannot unmarshal value into string field id_token"
  else .ok rec

/-- Decode the members of a JSON object into the struct, left to right (a
later duplicate key overrides an earlier one, as in `encoding/json`). -/
def decodeFields (rec : TokenRecord) : List (String × Json) → Except String TokenRecord
  | [] => .ok rec
  | (k, v) :: rest =>
    match setField rec k v with
    | .ok rec2 => decodeFields rec2 rest
    | .error e => .error e

/-- `json.Unmarshal(data, &rec)` for a `TokenRecord`: a JSON object decodes
member-wise from the zero value, JSON null is a no-op that leaves the zero
value, and every other JSON value is an unmarshalling error (fatal in
`Renew`). -/
def decodeTokenRecord : Json → Except String TokenRecord
  | .obj kvs => decodeFields zeroRecord kvs
  | .null => .ok zeroRecord
  | _ => .error "cannot unmarshal JSON value into TokenRecord"

/-- The outgoing HTTP request built by `Renew` (token.go lines 57-62). -/
structure Request where
  method : String
  url : String
  headers : List (String × String)
deriving DecidableEq

/-- The GET request `Renew` builds for resolved token `t`: it carries the
Authorization bearer header and the Accept header. -/
def renewRequest (t uri : String) : Request where
  method := "GET"
  url := uri
  headers := [("Authorization", "Bearer " ++ t), ("Accept", "application/json")]

/-- Observable result of one `Renew` call: the request it built (none when
`ReadToken` terminated the process first), the client it executed the
request with, the token record or the fatal error, and the log lines. -/
structure RenewResult where
  request : Option Request
  clientUsed : Option Client
  outcome : Except String TokenRecord
  logs : List String

/-- `Renew` from token.go.  `doReq` is the HTTP exchange oracle: it runs a
request on a client and yields a network error (fatal), a body that is not
valid JSON (`some req, none`, fatal at unmarshalling), or the parsed JSON
body.  The transport is built by `Transport`; on its error the zero-value
default client (system trust roots) is kept. -/
def Renew (fs : FS) (doReq : Client → Request → Except String (Option Json))
    (pem : String → List String) (uri token rootCAs : String) (verbose : Int) :
    RenewResult :=
  match ReadToken fs token with
  | none => ⟨none, none, .error ("Unable to read data from file: " ++ token), []⟩
  | some t =>
    let logs1 := if verbose > 1 then ["renew " ++ uri] else []
    let req := renewRequest t uri
    let logs2 := if verbose > 0 then ["request dump"] else []
    let tres := Transport pem fs rootCAs verbose
    let client := renewClient pem fs rootCAs verbose
    match doReq client req with
    | .error e =>
      ⟨some req, some client, .error ("Unable to make HTTP request: " ++ e),
        logs1 ++ logs2 ++ tres.logs⟩
    | .ok none =>
      let logs3 := if verbose > 1 then ["response dump"] else []
      ⟨some req, some client, .error "invalid JSON in response body",
        logs1 ++ logs2 ++ tres.logs ++ logs3⟩
    | .ok (some j) =>
      let logs3 := if verbose > 1 then ["response dump"] else []
      ⟨some req, some client, decodeTokenRecord j,
        logs1 ++ logs2 ++ tres.logs ++ logs3⟩

/-- Claim C4: whenever `Transport` returns an error, `Renew` keeps the
zero-value default client (standard system trust roots) and executes the
request with it; the default client is not insecure, so this failure path
never produces a verification-disabled transport. -/
theorem renew_transport_error_default_client (pem : String → List String)
    (fs : FS) (doReq : Client → Request → Except String (Option Json))
    (uri token rootCAs t : String) (verbose : Int) (e : String)
    (herr : (Transport pem fs rootCAs verbose).result = .error e)
    (htok : ReadToken fs token = some t) :
    renewClient pem fs rootCAs verbose = Client.default ∧
      (Renew fs doReq pem uri token rootCAs verbose).clientUsed =
        some Client.default ∧
      Client.isInsecure Client.default = false := by
  have hc : renewClient pem fs rootCAs verbose = Client.default := by
    simp [renewClient, herr]
  refine ⟨hc, ?_, rfl⟩
  unfold Renew
  rw [htok]
  simp only [hc]
  cases hdo : doReq Client.default (renewRequest t uri) with
  | error e2 => simp [hdo]
  | ok b => cases b <;> simp [hdo]

theorem renew_transport_error_default_client_witness :
    ((Transport pemNone fsEmpty "" 0).result =
        .error "root CAs area is not provided" ∧
      ReadToken fsEmpty "T0" = some "T0") ∧
      (renewClient pemNone fsEmpty "" 0 = Client.default ∧
        (Renew fsEmpty (fun _ _ => .ok (some (Json.obj []))) pemNone
            "https://x/token/renew" "T0" "" 0).clientUsed = some Client.default ∧
        Client.isInsecure Client.default = false) :=
  ⟨⟨rfl, rfl⟩,
    renew_transport_error_default_client pemNone fsEmpty
      (fun _ _ => .ok (some (Json.obj []))) "https://x/token/renew" "T0" ""
      "T0" 0 "root CAs area is not provided" rfl rfl⟩

/-- The configuration `Transport` computes does not depend on the verbosity;
only its log output does. -/
theorem transport_result_indep (pem : String → List String) (fs : FS)
    (rootCAs : String) (v v' : Int) :
    (Transport pem fs rootCAs v).result = (Transport pem fs rootCAs v').result := by
  cases hdir : fs.readDir rootCAs with
  | none => simp [Transport, hdir]
  | some files =>
    rw [transport_ok_of_readDir pem fs rootCAs v files hdir,
      transport_ok_of_readDir pem fs rootCAs v' files hdir]

/-- The client selection does not depend on the verbosity. -/
theorem renewClient_indep (pem : String → List String) (fs : FS)
    (rootCAs : String) (v v' : Int) :
    renewClient pem fs rootCAs v = renewClient pem fs rootCAs v' := by
  unfold renewClient
  rw [transport_result_indep pem fs rootCAs v v']

/-- Claim C10: for a fixed filesystem, PEM parser, HTTP oracle, uri, token
and rootCAs, the request `Renew` sends, the client it uses and the token
record (or fatal error) it returns are identical for all verbosity values:
verbosity influences only what is logged. -/
theorem renew_result_independent_of_verbose (fs : FS)
    (doReq : Client → Request → Except String (Option Json))
    (pem : String → List String) (uri token rootCAs : String) (v v' : Int) :
    (Renew fs doReq pem uri token rootCAs v).request =
        (Renew fs doReq pem uri token rootCAs v').request ∧
      (Renew fs doReq pem uri token rootCAs v).clientUsed =
        (Renew fs doReq pem uri token rootCAs v').clientUsed ∧
      (Renew fs doReq pem uri token rootCAs v).outcome =
        (Renew fs doReq pem uri token rootCAs v').outcome := by
  unfold Renew
  cases htok : ReadToken fs token with
  | none => exact ⟨rfl, rfl, rfl⟩
  | some t =>
    simp only [renewClient_indep pem fs rootCAs v v']
    cases hdo : doReq (renewClient pem fs rootCAs v') (renewRequest t uri) with
    | error e => simp [hdo]
    | ok b => cases b <;> simp [hdo]

/-- The in-memory state of main's daemon loop: the most recently obtained
record and the filesystem (carrying the output file). -/
structure DaemonState where
  record : TokenRecord
  fs : FS

/-- Persisting a new record (token.go lines 234-239 and 250-255): when an
output path is configured, `ioutil.WriteFile` overwrites it with exactly the
access token. -/
def persistToken (out : String) (r : TokenRecord) (fs : FS) : FS :=
  if out = "" then fs else fs.writeFile out r.accessToken

/-- The first renewal of `main` (token.go lines 232-239): renew against
`<uri>/token/renew` with the caller-supplied token and persist the record. -/
def mainOnce (doReq : Client → Request → Except String (Option Json))
    (pem : String → List String) (uri token rootCAs out : String)
    (verbose : Int) (fs : FS) : Except String DaemonState :=
  match (Renew fs doReq pem (uri ++ "/token/renew") token rootCAs verbose).outcome with
  | .error e => .error e
  | .ok r => .ok ⟨r, persistToken out r fs⟩

/-- One iteration of the daemon loop (token.go lines 243-257): renew with
the previous record's refresh token, persist, and replace the record. -/
def loopStep (doReq : Client → Request → Except String (Option Json))
    (pem : String → List String) (rurl rootCAs out : String) (verbose : Int)
    (st : DaemonState) : Except String DaemonState :=
  match (Renew st.fs doReq pem rurl st.record.refreshToken rootCAs verbose).outcome with
  | .error e => .error e
  | .ok r => .ok ⟨r, persistToken out r st.fs⟩

/-- Whenever `ReadToken` resolves, the request `Renew` builds is the bearer
request for the resolved token, on every execution path. -/
theorem renew_request_of_readToken (fs : FS)
    (doReq : Client → Request → Except String (Option Json))
    (pem : String → List String) (uri token rootCAs t : String) (verbose : Int)
    (htok : ReadToken fs token = some t) :
    (Renew fs doReq pem uri token rootCAs verbose).request =
      some (renewRequest t uri) := by
  unfold Renew
  rw [htok]
  cases hdo : doReq (renewClient pem fs rootCAs verbose) (renewRequest t uri) with
  | error e => simp [hdo]
  | ok b => cases b <;> simp [hdo]

/-- Claim C5: in every daemon-loop iteration, the Renewal Client is called
with the previous record's refresh token as the input token, the request it
sends carries the header Authorization: Bearer <previous refresh token>
(given that the refresh token does not name an existing file, so that
`ReadToken` returns it unchanged), and the record from that call replaces
the in-memory record. -/
theorem daemon_loop_uses_previous_refresh_token
    (doReq : Client → Request → Except String (Option Json))
    (pem : String → List String) (rurl rootCAs out : String) (verbose : Int)
    (st st' : DaemonState)
    (hstat : st.fs.stat st.record.refreshToken = false)
    (h : loopStep doReq pem rurl rootCAs out verbose st = .ok st') :
    (Renew st.fs doReq pem rurl st.record.refreshToken rootCAs verbose).request =
        some (renewRequest st.record.refreshToken rurl) ∧
      (renewRequest st.record.refreshToken rurl).headers =
        [("Authorization", "Bearer " ++ st.record.refreshToken),
          ("Accept", "application/json")] ∧
      (Renew st.fs doReq pem rurl st.record.refreshToken rootCAs verbose).outcome =
        .ok st'.record := by
  have htok : ReadToken st.fs st.record.refreshToken =
      some st.record.refreshToken := by
    simp [ReadToken, hstat]
  refine ⟨renew_request_of_readToken st.fs doReq pem rurl st.record.refreshToken
    rootCAs st.record.refreshToken verbose htok, rfl, ?_⟩
  unfold loopStep at h
  cases hout : (Renew st.fs doReq pem rurl st.record.refreshToken rootCAs
      verbose).outcome with
  | error e => rw [hout] at h; simp at h
  | ok r =>
    rw [hout] at h
    simp only [Except.ok.injEq] at h
    subst h
    rfl

/-- HTTP oracle answering every request with a fixed record whose access
token is "A2" and refresh token is "R2". -/
def doReqW : Client → Request → Except String (Option Json) :=
  fun _ _ => .ok (some (Json.obj
    [("access_token", Json.str "A2"), ("refresh_token", Json.str "R2")]))

/-- A previously obtained record whose refresh token is "R1". -/
def recW1 : TokenRecord := ⟨"A1", 120, "R1", 3600, "I1"⟩

/-- The record decoded from `doReqW`'s response body. -/
def recW2 : TokenRecord := ⟨"A2", 0, "R2", 0, ""⟩

theorem daemon_loop_uses_previous_refresh_token_witness :
    (fsEmpty.stat "R1" = false ∧
      loopStep doReqW pemNone "https://x/token/renew" "" "" 0 ⟨recW1, fsEmpty⟩ =
        .ok ⟨recW2, fsEmpty⟩) ∧
      ((Renew fsEmpty doReqW pemNone "https://x/token/renew" "R1" "" 0).request =
          some (renewRequest "R1" "https://x/token/renew") ∧
        (renewRequest "R1" "https://x/token/renew").headers =
          [("Authorization", "Bearer R1"), ("Accept", "application/json")] ∧
        (Renew fsEmpty doReqW pemNone "https://x/token/renew" "R1" "" 0).outcome =
          .ok recW2) :=
  ⟨⟨rfl, rfl⟩,
    daemon_loop_uses_previous_refresh_token doReqW pemNone "https://x/token/renew"
      "" "" 0 ⟨recW1, fsEmpty⟩ ⟨recW2, fsEmpty⟩ rfl rfl⟩

/-- After persisting with a non-empty output path, reading the output path
yields exactly the access token, whatever the file held before. -/
theorem persistToken_readFile (out : String) (r : TokenRecord) (fs : FS)
    (hout : ¬out = "") :
    (persistToken out r fs).readFile out = some r.accessToken := by
  simp [persistToken, hout, FS.writeFile]

/-- Claim C8: after every successful renewal with a non-empty output path
configured — the initial renewal of main as well as every daemon-loop
iteration — the output file's entire contents equal exactly the
access_token of the new record, with nothing appended and no surrounding
whitespace, regardless of the file's previous contents. -/
theorem output_file_equals_access_token
    (doReq : Client → Request → Except String (Option Json))
    (pem : String → List String) (uri rurl token rootCAs out : String)
    (verbose : Int) (fs : FS) (st st1 st' : DaemonState) (hout : ¬out = "") :
    (mainOnce doReq pem uri token rootCAs out verbose fs = .ok st1 →
      st1.fs.readFile out = some st1.record.accessToken) ∧
      (loopStep doReq pem rurl rootCAs out verbose st = .ok st' →
        st'.fs.readFile out = some st'.record.accessToken) := by
  constructor
  · intro h
    unfold mainOnce at h
    cases hres : (Renew fs doReq pem (uri ++ "/token/renew") token rootCAs
        verbose).outcome with
    | error e => rw [hres] at h; simp at h
    | ok r =>
      rw [hres] at h
      simp only [Except.ok.injEq] at h
      subst h
      exact persistToken_readFile out r fs hout
  · intro h
    unfold loopStep at h
    cases hres : (Renew st.fs doReq pem rurl st.record.refreshToken rootCAs
        verbose).outcome with
    | error e => rw [hres] at h; simp at h
    | ok r =>
      rw [hres] at h
      simp only [Except.ok.injEq] at h
      subst h
      exact persistToken_readFile out r st.fs hout

/-- The daemon state reached after a renewal that wrote "A2" to "out.txt". -/
def stOut : DaemonState := ⟨recW2, fsEmpty.writeFile "out.txt" "A2"⟩

theorem output_file_equals_access_token_witness :
    ¬("out.txt" : String) = "" ∧
      ((mainOnce doReqW pemNone "https://x" "T0" "" "out.txt" 0 fsEmpty =
          .ok stOut → stOut.fs.readFile "out.txt" = some stOut.record.accessToken) ∧
        (loopStep doReqW pemNone "https://x/token/renew" "" "out.txt" 0
            ⟨recW1, fsEmpty⟩ = .ok stOut →
          stOut.fs.readFile "out.txt" = some stOut.record.accessToken)) :=
  ⟨by decide,
    output_file_equals_access_token doReqW pemNone "https://x"
      "https://x/token/renew" "T0" "" "out.txt" 0 fsEmpty ⟨recW1, fsEmpty⟩
      stOut stOut (by decide)⟩
